import Mathlib

/-!
Verification of the cat_gender_detector training-ETL pipeline.

Python strings are modelled as `List Char`; the Python substring test
`a in b` is `List.IsInfix`; a raised exception that the surrounding code
does not catch is modelled by `Option`/`Except` error values.  Fractional
arithmetic (box geometry, split proportions) is modelled exactly over `ℚ`.
-/

namespace CatGender

/-- A Python `str`, modelled as its list of characters. -/
abbrev Str := List Char

def strOf (s : String) : Str := s.data

/-- The canonical label string `"MALE CAT"`. -/
def MALE_CAT : Str := strOf "MALE CAT"

/-- The canonical label string `"FEMALE CAT"`. -/
def FEMALE_CAT : Str := strOf "FEMALE CAT"

/-- The canonical label string `"OTHER"`. -/
def OTHER : Str := strOf "OTHER"

/-- The keys of `DescriptionClassifier.class_names_mapping`
(`{"MALE CAT": 0, "FEMALE CAT": 1, "OTHER": 2}`), in dict insertion order. -/
def classNamesKeys : List Str := [MALE_CAT, FEMALE_CAT, OTHER]

/-- Value lookup in `class_names_mapping`; only ever applied to keys of the dict. -/
def classNamesMapping (name : Str) : Nat :=
  if name = MALE_CAT then 0 else if name = FEMALE_CAT then 1 else 2

/-- `DescriptionClassifier.get_class_id`.  `none` models an uncaught Python
exception: when the candidate is not an exact key and zero canonical names
occur as substrings, the source evaluates `actual_class_names[0]` on an
empty list, raising `IndexError`. -/
def get_class_id (cand : Str) : Option Nat :=
  if cand ∈ classNamesKeys then some (classNamesMapping cand)
  else
    let actual := classNamesKeys.filter (fun name => decide (name <:+: cand))
    if 1 < actual.length then some (classNamesMapping OTHER)
    else
      match actual with
      | [] => none
      | n :: _ => some (classNamesMapping n)

example : get_class_id (strOf "MALE CAT") = some 0 := by decide
example : get_class_id (strOf "FEMALE CAT") = some 1 := by decide
example : get_class_id (strOf "banana") = none := by decide
example : get_class_id (strOf "female cat, handsome boy") = none := by decide
example : get_class_id (strOf "FEMALE CAT, HANDSOME BOY") = some 2 := by decide

/-- `Path(p).name`: the component after the last slash. -/
def pathName (p : Str) : Str :=
  (p.reverse.takeWhile (fun c => c ≠ '/')).reverse

/-- Python `s.replace(old, new)` for a non-empty pattern `old`, written
with a fuel parameter bounding the number of characters still to scan (the
wrapper below passes the length of the scanned string, which always suffices
because each step consumes at least one character): replace all
non-overlapping occurrences, scanning left to right, and continue scanning
after each replacement. -/
def replaceAllAux (old new : Str) : Nat → Str → Str
  | _, [] => []
  | 0, s => s
  | fuel + 1, c :: rest =>
    if old ≠ [] ∧ old <+: (c :: rest) then
      new ++ replaceAllAux old new fuel ((c :: rest).drop old.length)
    else
      c :: replaceAllAux old new fuel rest

/-- Python `s.replace(old, new)` for a non-empty `old`.  (The source only
ever passes the non-empty patterns `images` and the image format
`.png`.) -/
def replaceAll (old new s : Str) : Str :=
  replaceAllAux old new s.length s

/-- Python `re.sub` deleting every match of the pattern `_\d+` in `s`, with a fuel parameter bounding the
number of characters still to scan: delete every occurrence of an
underscore followed by a maximal nonempty run of decimal digits, scanning
left to right.  (The file names of the pipeline are ASCII, where `\d` is
`Char.isDigit`.) -/
def subUnderscoreDigitsAux : Nat → Str → Str
  | _, [] => []
  | 0, s => s
  | fuel + 1, c :: rest =>
    if c = '_' ∧ rest.takeWhile Char.isDigit ≠ [] then
      subUnderscoreDigitsAux fuel (rest.dropWhile Char.isDigit)
    else
      c :: subUnderscoreDigitsAux fuel rest

/-- Python `re.sub` deleting every match of the pattern `_\d+`. -/
def subUnderscoreDigits (s : Str) : Str :=
  subUnderscoreDigitsAux s.length s

example : subUnderscoreDigits (strOf "data/labels/abc_12.txt") = strOf "data/labels/abc.txt" := by decide

/-- `ETL.image_path_to_text_path`:
replace every occurrence of `images` by `texts` and of the image format by `.txt`, then delete every match of `_\d+`. -/
def image_path_to_text_path (image_format image_path : Str) : Str :=
  subUnderscoreDigits
    (replaceAll image_format (strOf ".txt")
      (replaceAll (strOf "images") (strOf "texts") image_path))

/-- `ETL.get_processed_text_file_names`: map every label file path to the
basename of its reconstructed source text path. -/
def get_processed_text_file_names (image_format : Str) (label_files : List Str) : List Str :=
  label_files.map (fun l => pathName (image_path_to_text_path image_format l))

/-- One row of the classification audit log (`ETL.classes_log`). -/
structure ClassificationRecord where
  text_path : Str
  class_name : Str
  timestamp : Nat
deriving DecidableEq

/-- `ETL.get_correct_class_name`.  The argument is the outcome of reading
the text file and calling `classify_description` on it: `some s` when the
remote call returns the string `s`, `none` when an exception is raised
(the function catches it itself).  The result is the class name the
function returns, the records it appends to `classes_log`, and the number
of lines it appends to the exceptions file. -/
def get_correct_class_name (text_path : Str) (ts : Nat) :
    Option Str → Str × List ClassificationRecord × Nat
  | some name => (name, [⟨text_path, name, ts⟩], 0)
  | none => (strOf "OTHER", [], 1)

/-- `ETL.process_training_post`.  `.error ()` models an exception escaping
the call: the `IndexError` that `get_class_id` can raise is not caught
here.  `image_results` lists the boolean results of
`process_training_image` on the image paths globbed for this text
(`process_training_image` catches all of its own exceptions, so those
calls never raise).  The result carries the returned `(success, reason)`
pair and the records appended to `classes_log`. -/
def process_training_post (text_file_path : Str) (processed : List Str)
    (classifyResult : Option Str) (ts : Nat) (image_results : List Bool) :
    Except Unit ((Bool × Str) × List ClassificationRecord) :=
  if pathName text_file_path ∈ processed then
    .ok ((false, strOf "processed"), [])
  else
    let r := get_correct_class_name text_file_path ts classifyResult
    match get_class_id r.1 with
    | none => .error ()
    | some id =>
      if id ≠ 2 then
        if image_results = [] then
          .ok ((false, strOf "No images found for this text"), r.2.1)
        else if image_results.count true = 0 then
          .ok ((false, strOf "Text classified, but no images were processed"), r.2.1)
        else
          .ok ((true, strOf "OK"), r.2.1)
      else
        .ok ((false, strOf "No cats mentioned or multiple cats mentioned"), r.2.1)

/-- The per-item loop of `ETL.process_training_data`: each text file is
given by its path, its classification-call outcome and the results of
processing its globbed images.  An exception escaping
`process_training_post` propagates and aborts the whole run — the source
has no try/except around the loop body. -/
def process_training_data (image_format : Str) (label_files : List Str) :
    List (Str × Option Str × List Bool) → Except Unit (List (Bool × Str))
  | [] => .ok []
  | (p, c, imgs) :: rest =>
    match process_training_post p (get_processed_text_file_names image_format label_files) c 0 imgs with
    | .error e => .error e
    | .ok (res, _) =>
      match process_training_data image_format label_files rest with
      | .error e => .error e
      | .ok others => .ok (res :: others)

/-- One detector detection: a row `(c0, c1, c2, c3)` of `detections.xyxy`
(the supervision library documents each row as
`(x_min, y_min, x_max, y_max)`) together with its `class_id`. -/
structure Detection where
  c0 : ℚ
  c1 : ℚ
  c2 : ℚ
  c3 : ℚ
  class_id : Nat
deriving DecidableEq

/-- `TrainingImageProcessor.detections_to_yolo_format`.  The source unpacks
each `xyxy` row as `ymin, xmin, ymax, xmax = coords.tolist()`: first
component to `ymin`, second to `xmin`, third to `ymax`, fourth to `xmax`. -/
def detections_to_yolo_format (xyxy : List (ℚ × ℚ × ℚ × ℚ)) (img_h img_w : ℚ) :
    List (ℚ × ℚ × ℚ × ℚ) :=
  xyxy.map (fun coords =>
    let ymin := coords.1
    let xmin := coords.2.1
    let ymax := coords.2.2.1
    let xmax := coords.2.2.2
    let box_height := (ymax - ymin) / img_h
    let box_width := (xmax - xmin) / img_w
    let center_x := (xmin + (xmax - xmin) / 2) / img_w
    let center_y := (ymin + (ymax - ymin) / 2) / img_h
    (center_x, center_y, box_width, box_height))

/-- `TrainingImageProcessor.write_detections_to_labels_file`: the lines of
the written label file, one per `zip(yolo_detections, gt_labels)` pair,
each line being the label followed by the four coordinates. -/
def write_detections_to_labels_file (yolo_detections : List (ℚ × ℚ × ℚ × ℚ))
    (gt_labels : List Nat) : List (Nat × (ℚ × ℚ × ℚ × ℚ)) :=
  (yolo_detections.zip gt_labels).map (fun z => (z.2, z.1))

/-- `TrainingImageProcessor.process_training_image`.  `image` packages what
the source observes of the outside world: `none` when `cv2.imread` cannot
read the file, otherwise the pair `(img_height, img_width)` from
`image.shape[:2]` together with the detections the detector returns on the
image.  The result is the returned boolean and the contents of the label
file when one is written. -/
def process_training_image (image : Option ((ℚ × ℚ) × List Detection)) (label : Nat) :
    Bool × Option (List (Nat × (ℚ × ℚ × ℚ × ℚ))) :=
  match image with
  | none => (false, none)
  | some ((img_height, img_width), detections) =>
    let cat_detections := detections.filter (fun d => d.class_id = 15)
    if cat_detections.length = 0 then (false, none)
    else
      let yolo_detections := detections_to_yolo_format
        (cat_detections.map (fun d => (d.c0, d.c1, d.c2, d.c3))) img_height img_width
      if 1 < yolo_detections.length then (false, none)
      else (true, some (write_detections_to_labels_file yolo_detections [label]))

/-- `DatasetManager.get_labeled_image_paths`:
`list(set(image_files).intersection(set(label_files)))` over stems — the
distinct stems present in both directories.  The Python set order is
arbitrary and the very next step shuffles, so any duplicate-free
enumeration of the intersection represents it. -/
def get_labeled_image_paths (image_files label_files : List Str) : List Str :=
  image_files.dedup.filter (fun s => s ∈ label_files)

/-- Floor logarithm base two of a natural number, with a fuel parameter
bounding the recursion depth (64 suffices for every number below `2^64`,
far above anything the pipeline computes). -/
def natLog2F : Nat → Nat → Nat
  | 0, _ => 0
  | fuel + 1, n => if 2 ≤ n then natLog2F fuel (n / 2) + 1 else 0

/-- Round a rational to the nearest integer, ties to the even integer —
the IEEE-754 default rounding, applied to a scaled significand. -/
def roundHalfEven (q : ℚ) : ℤ :=
  if q - ⌊q⌋ < 1/2 then ⌊q⌋
  else if 1/2 < q - ⌊q⌋ then ⌊q⌋ + 1
  else if ⌊q⌋ % 2 = 0 then ⌊q⌋ else ⌊q⌋ + 1

/-- `⌊log₂ q⌋` for a positive rational `q`, computed from the integer part
of `q` (when `q ≥ 1`) or of `1/q` (when `q < 1`, with a correction when
`q` is an exact power of two). -/
def log2floorQ (q : ℚ) : ℤ :=
  if 1 ≤ q then (natLog2F 64 (⌊q⌋).toNat : ℤ)
  else
    let z := natLog2F 64 (⌊1/q⌋).toNat
    if 1 ≤ q * 2^z then -(z : ℤ) else -(z : ℤ) - 1

/-- The IEEE-754 binary64 value nearest to the rational `q` (round to
nearest, ties to even), as the exact rational that double represents: the
significand `|q| / 2^(⌊log₂ |q|⌋ - 52)` lies in `[2^52, 2^53)` and is
rounded to an integer.  Valid on the normal range — no overflow or
subnormal handling — which covers every value this pipeline computes. -/
def roundDouble (q : ℚ) : ℚ :=
  if q = 0 then 0
  else
    let scale : ℤ := log2floorQ |q| - 52
    let n := roundHalfEven (|q| / 2^scale)
    (if q < 0 then -1 else 1) * (n : ℚ) * 2^scale

/-- The binary64 value denoted by a Python float literal such as `0.7`:
the decimal value rounded to the nearest double. -/
def pyDouble (q : ℚ) : ℚ := roundDouble q

/-- Python `int()` on a float value: truncation toward zero. -/
def pyInt (q : ℚ) : ℤ :=
  if q < 0 then -⌊-q⌋ else ⌊q⌋

/-- `DatasetManager.split_dataset` after its shuffle: `shuffled` is the
shuffled list of labeled stems.  `len(labeled_images) * self.train_size`
multiplies two binary64 values — the length converted exactly (it is far
below `2^53`) and the stored proportion — rounding the product to the
nearest double, and `int()` truncates the result toward zero.  The
callers pass the doubles denoted by the literals `0.7` and `0.2`. -/
def split_dataset (train_size val_size : ℚ) (shuffled : List Str) :
    List Str × List Str × List Str :=
  let train_count := (pyInt (roundDouble ((shuffled.length : ℚ) * train_size))).toNat
  let val_count := (pyInt (roundDouble ((shuffled.length : ℚ) * val_size))).toNat
  (shuffled.take train_count,
   (shuffled.drop train_count).take val_count,
   shuffled.drop (train_count + val_count))

/-- An observable event of `ETL.parse_posts`: one call to
`post_parser.get_posts_batch` (recording its `posts_to_parse` and `offset`
arguments) or one `time.sleep(batch_delay)`. -/
inductive ParseEvent
  | batch (posts_to_parse offset : Nat)
  | sleep
deriving DecidableEq

/-- The `for it in range(num_iterations)` loop of `ETL.parse_posts`,
entered at iteration `it` with the given `remaining_posts_to_parse` and
`parsed_posts`; the structural argument counts the iterations still to run
(`num_iterations - it`, kept in step by the recursive call).  Returns the
events emitted from iteration `it` on, and the final `parsed_posts`. -/
def parsePostsLoop (num_iterations max_posts : Nat) :
    Nat → Nat → Nat → Nat → List ParseEvent × Nat
  | 0, _, _, parsed => ([], parsed)
  | left + 1, it, remaining, parsed =>
    let current := min remaining max_posts
    let tail := parsePostsLoop num_iterations max_posts left (it + 1) (remaining - current) (parsed + current)
    (ParseEvent.batch current parsed ::
      ((if it < num_iterations - 1 then [ParseEvent.sleep] else []) ++ tail.1),
     tail.2)

/-- `ETL.parse_posts` with a configured parser:
`num_iterations = N // M + int(N % M != 0)`, then the loop started at
`it = 0` with `remaining = N` and `parsed = 0`.  Returns the emitted
events and the returned `parsed_posts`.  (Python raises
`ZeroDivisionError` when `M = 0`; the claims only concern `M > 0`.) -/
def parse_posts (posts_to_parse max_posts_in_iteration : Nat) : List ParseEvent × Nat :=
  let num_iterations := posts_to_parse / max_posts_in_iteration +
    (if posts_to_parse % max_posts_in_iteration ≠ 0 then 1 else 0)
  parsePostsLoop num_iterations max_posts_in_iteration num_iterations 0 posts_to_parse 0

/-- The batch requests among a list of events, in order. -/
def batchEvents (evs : List ParseEvent) : List (Nat × Nat) :=
  evs.filterMap (fun e => match e with
    | .batch c o => some (c, o)
    | .sleep => none)

/-- The number of sleeps among a list of events. -/
def sleepCount (evs : List ParseEvent) : Nat :=
  (evs.filter (fun e => e = ParseEvent.sleep)).length

/-! ## Claims -/

/-- C1: the claim says that a candidate containing zero canonical label
strings as substrings resolves to `OTHER` (id 2) and that `get_class_id`
is total.  In the source, that case evaluates `actual_class_names[0]` on
an empty list and raises `IndexError` (modelled by `none`): the example
candidates `"banana"` and `"female cat, handsome boy"` (the substring scan
is case-sensitive, so the lowercase string contains no canonical label)
both raise instead of resolving to `OTHER`; exact matches still map
directly, as on `"MALE CAT"`. -/
theorem C1_get_class_id_raises_on_zero_containment :
    get_class_id (strOf "banana") = none ∧
    get_class_id (strOf "female cat, handsome boy") = none ∧
    get_class_id (strOf "MALE CAT") = some 0 ∧
    get_class_id (strOf "OTHER") = some 2 :=
  ⟨by decide, by decide, by decide, by decide⟩

/-- C10: since `"MALE CAT"` is a substring of `"FEMALE CAT"`, every
candidate that is not an exact key but contains `"FEMALE CAT"` contains at
least two canonical labels, so `get_class_id` resolves it to `OTHER`
(id 2); consequently the only candidate ever mapped to the FEMALE class
(id 1) is the exact string `"FEMALE CAT"`. -/
theorem C10_female_containment_resolves_to_other :
    (∀ cand : Str, cand ∉ classNamesKeys → FEMALE_CAT <:+: cand →
      get_class_id cand = some 2) ∧
    (∀ cand : Str, get_class_id cand = some 1 → cand = FEMALE_CAT) := by
  have hmap_other : classNamesMapping OTHER = 2 := by decide
  have key_two : ∀ cand : Str, cand ∉ classNamesKeys → FEMALE_CAT <:+: cand →
      get_class_id cand = some 2 := by
    intro cand hmem hfem
    have hmale : MALE_CAT <:+: cand :=
      (by decide : MALE_CAT <:+: FEMALE_CAT).trans hfem
    unfold get_class_id
    rw [if_neg hmem]
    have hfil : classNamesKeys.filter (fun name => decide (name <:+: cand)) =
        MALE_CAT :: FEMALE_CAT :: List.filter (fun name => decide (name <:+: cand)) [OTHER] := by
      simp [classNamesKeys, List.filter_cons, hmale, hfem]
    simp only [hfil]
    rw [if_pos (by simp only [List.length_cons]; omega)]
    rw [hmap_other]
  refine ⟨key_two, ?_⟩
  intro cand h
  by_cases hmem : cand ∈ classNamesKeys
  · have hkeys : cand = MALE_CAT ∨ cand = FEMALE_CAT ∨ cand = OTHER := by
      simpa [classNamesKeys] using hmem
    rcases hkeys with h1 | h1 | h1 <;> subst h1
    · rw [show get_class_id MALE_CAT = some 0 from by decide] at h
      exact absurd h (by decide)
    · rfl
    · rw [show get_class_id OTHER = some 2 from by decide] at h
      exact absurd h (by decide)
  · by_cases hfem : FEMALE_CAT <:+: cand
    · rw [key_two cand hmem hfem] at h
      exact absurd h (by decide)
    · exfalso
      unfold get_class_id at h
      rw [if_neg hmem] at h
      rcases hfil : classNamesKeys.filter (fun name => decide (name <:+: cand)) with
        _ | ⟨n, t⟩
      · rw [hfil] at h
        simp at h
      · rw [hfil] at h
        by_cases hlen : 1 < (n :: t).length
        · rw [if_pos hlen, hmap_other] at h
          exact absurd h (by decide)
        · rw [if_neg hlen] at h
          have hn : n ∈ classNamesKeys.filter (fun name => decide (name <:+: cand)) := by
            rw [hfil]; exact List.mem_cons_self n t
          have hn' := List.of_mem_filter hn
          have hnk := List.mem_of_mem_filter hn
          have hmapn : classNamesMapping n = 1 := by
            injection h
          have hnf : n = FEMALE_CAT := by
            by_contra hne
            have hcase : n = MALE_CAT ∨ n = FEMALE_CAT ∨ n = OTHER := by
              simpa [classNamesKeys] using hnk
            rcases hcase with h2 | h2 | h2
            · subst h2; revert hmapn; decide
            · exact hne h2
            · subst h2; revert hmapn; decide
          subst hnf
          exact hfem (by simpa using hn')

theorem C10_witness :
    get_class_id (strOf "FEMALE CAT, HANDSOME BOY") = some 2 :=
  C10_female_containment_resolves_to_other.1 (strOf "FEMALE CAT, HANDSOME BOY")
    (by decide) (by decide)

/-- C4: the claim says no per-item failure can raise out of an individual
item, whatever string the remote classifier returns.  Running the
labeling loop on a single unprocessed text whose classifier call returns
`"banana"` (no canonical label contained), the `IndexError` raised inside
`get_class_id` is not caught at item scope: it escapes
`process_training_post` and aborts the whole run. -/
theorem C4_run_aborts_on_malformed_classifier_reply :
    process_training_data (strOf ".png") []
      [(strOf "data/texts/a.txt", some (strOf "banana"), [])] = .error () := rfl

/-- C5 counterexample: the claim says every classification attempt appends
one `ClassificationRecord`, including the error path that falls back to
`OTHER`.  On the error path (classification call raises), the source
appends nothing to `classes_log` — it only writes an exceptions-file line
and returns `"OTHER"`. -/
theorem C5_counterexample_error_path_appends_no_record :
    (get_correct_class_name (strOf "data/texts/a.txt") 0 none).2.1 = [] ∧
    (get_correct_class_name (strOf "data/texts/a.txt") 0 none).1 = strOf "OTHER" :=
  ⟨rfl, rfl⟩

/-- C5 amended: exactly the successful classification path appends one
`ClassificationRecord` (with the text path, the returned label and the
timestamp); the error path appends no record, writes one exceptions-file
line instead, and falls back to the `OTHER` label — in either case
independently of the subsequent image-labeling step, which
`get_correct_class_name` never consults. -/
theorem C5_record_appended_iff_classification_succeeds :
    ∀ (p : Str) (ts : Nat) (r : Option Str),
      (∀ name, r = some name →
        (get_correct_class_name p ts r).2.1 = [⟨p, name, ts⟩] ∧
        (get_correct_class_name p ts r).2.2 = 0) ∧
      (r = none →
        (get_correct_class_name p ts r).2.1 = [] ∧
        (get_correct_class_name p ts r).2.2 = 1 ∧
        (get_correct_class_name p ts r).1 = strOf "OTHER") := by
  intro p ts r
  refine ⟨?_, ?_⟩
  · intro name hr
    subst hr
    exact ⟨rfl, rfl⟩
  · intro hr
    subst hr
    exact ⟨rfl, rfl, rfl⟩

theorem C5_witness :
    (get_correct_class_name (strOf "data/texts/b.txt") 7 (some (strOf "MALE CAT"))).2.1 =
      [⟨strOf "data/texts/b.txt", strOf "MALE CAT", 7⟩] ∧
    (get_correct_class_name (strOf "data/texts/b.txt") 7 (some (strOf "MALE CAT"))).2.2 = 0 :=
  (C5_record_appended_iff_classification_succeeds (strOf "data/texts/b.txt") 7
    (some (strOf "MALE CAT"))).1 (strOf "MALE CAT") rfl

/-- C6: for every text file whose basename lies in the set derived from
the labels directory by `get_processed_text_file_names` (strip the
image-index suffix, swap path segment and extension, take the basename),
`process_training_post` returns the skip outcome `(False, "processed")`
without invoking the remote classifier: the result is the same for every
possible classifier outcome and no classification record is appended. -/
theorem C6_already_labeled_text_is_skipped :
    ∀ (image_format : Str) (label_files : List Str) (text_file_path : Str)
      (classifyResult : Option Str) (ts : Nat) (image_results : List Bool),
      pathName text_file_path ∈ get_processed_text_file_names image_format label_files →
      process_training_post text_file_path
        (get_processed_text_file_names image_format label_files)
        classifyResult ts image_results = .ok ((false, strOf "processed"), []) := by
  intro fmt lf p c ts imgs h
  unfold process_training_post
  rw [if_pos h]

/-- C2: the claim says every written label file has exactly one line with
all four geometry values in `[0, 1]`, for every image size and every
detection box inside the image bounds.  The one-line part holds, but
because the source unpacks each x-first `xyxy` row as
`ymin, xmin, ymax, xmax`, the fourth geometry value can exceed 1: for a
200-wide, 100-high image and the in-bounds box
`(x_min, y_min, x_max, y_max) = (0, 0, 150, 50)`, the single written line
is `(1/8, 3/4, 1/4, 3/2)` — its last value is `3/2 > 1`. -/
theorem C2_written_geometry_can_leave_unit_interval :
    process_training_image (some ((100, 200), [⟨0, 0, 150, 50, 15⟩])) 0 =
      (true, some [(0, (1/8, 3/4, 1/4, 3/2))]) ∧
    (write_detections_to_labels_file
      (detections_to_yolo_format [(0, 0, 150, 50)] 100 200) [0]).length = 1 ∧
    ¬((3 : ℚ)/2 ≤ 1) := by
  refine ⟨?_, ?_, by norm_num⟩
  · norm_num [process_training_image, detections_to_yolo_format,
      write_detections_to_labels_file]
  · norm_num [write_detections_to_labels_file, detections_to_yolo_format]

/-- C3: the claim says the written coordinates obey
`center_x = (xmin + (xmax - xmin)/2) / width` with `xmin`/`xmax` the
horizontal extent of the detector box.  The source unpacks the x-first
`xyxy` row `(x_min, y_min, x_max, y_max)` as `ymin, xmin, ymax, xmax`, so
for the row `(10, 20, 30, 80)` in a 100-wide, 200-high image it produces
`center_x = (y_min + (y_max - y_min)/2) / width = 1/2`, while the claimed
formula gives `(10 + (30 - 10)/2) / 100 = 1/5`. -/
theorem C3_center_x_computed_from_vertical_extent :
    detections_to_yolo_format [(10, 20, 30, 80)] 200 100 = [(1/2, 1/10, 3/5, 1/10)] ∧
    ((1 : ℚ)/2 ≠ (10 + (30 - 10)/2) / 100) := by
  constructor
  · norm_num [detections_to_yolo_format]
  · norm_num

/-- C7: a label file is written (and the call returns success) if and only
if the image holds exactly one detection of the target class 15; with
zero or more than one qualifying detection the call returns failure and
writes nothing. -/
theorem C7_label_file_iff_exactly_one_cat :
    ∀ (img_height img_width : ℚ) (detections : List Detection) (label : Nat),
      ((detections.filter (fun d => d.class_id = 15)).length ≠ 1 →
        process_training_image (some ((img_height, img_width), detections)) label =
          (false, none)) ∧
      ((process_training_image (some ((img_height, img_width), detections)) label).2.isSome ↔
        (detections.filter (fun d => d.class_id = 15)).length = 1) ∧
      ((process_training_image (some ((img_height, img_width), detections)) label).1 = true ↔
        (detections.filter (fun d => d.class_id = 15)).length = 1) := by
  intro h w dets lbl
  have hlen : (detections_to_yolo_format
      ((dets.filter (fun d => d.class_id = 15)).map (fun d => (d.c0, d.c1, d.c2, d.c3))) h w).length =
      (dets.filter (fun d => d.class_id = 15)).length := by
    simp [detections_to_yolo_format]
  unfold process_training_image
  dsimp only
  refine ⟨?_, ?_, ?_⟩
  · intro hne
    split_ifs with h0 h1
    · rfl
    · rfl
    · exfalso
      rw [hlen] at h1
      omega
  · split_ifs with h0 h1
    · simp [h0]
    · rw [hlen] at h1
      simp
      omega
    · rw [hlen] at h1
      simp
      omega
  · split_ifs with h0 h1
    · simp [h0]
    · rw [hlen] at h1
      simp
      omega
    · rw [hlen] at h1
      simp
      omega

theorem C7_witness :
    process_training_image
      (some ((100, 100), [⟨0, 0, 10, 10, 15⟩, ⟨20, 20, 40, 40, 15⟩])) 0 = (false, none) :=
  (C7_label_file_iff_exactly_one_cat 100 100 [⟨0, 0, 10, 10, 15⟩, ⟨20, 20, 40, 40, 15⟩] 0).1
    (by decide)

theorem C6_witness :
    process_training_post (strOf "data/texts/abc.txt")
      (get_processed_text_file_names (strOf ".png") [strOf "data/labels/abc_1.txt"])
      (some (strOf "banana")) 0 [] = .ok ((false, strOf "processed"), []) :=
  C6_already_labeled_text_is_skipped (strOf ".png") [strOf "data/labels/abc_1.txt"]
    (strOf "data/texts/abc.txt") (some (strOf "banana")) 0 [] (by decide)

lemma take_take_drop_concat (sh : List Str) (tc vc : ℕ) :
    sh.take tc ++ ((sh.drop tc).take vc ++ sh.drop (tc + vc)) = sh := by
  rw [show sh.drop (tc + vc) = (sh.drop tc).drop vc from by
    rw [List.drop_drop, Nat.add_comm]]
  rw [List.take_append_drop, List.take_append_drop]

/-- Evaluation rule for `roundDouble` on a positive rational whose floor
logarithm and rounded significand are known. -/
lemma roundDouble_eval (q : ℚ) (z n : ℤ) (hq : 0 < q)
    (hlog : log2floorQ q = z)
    (hn : roundHalfEven (q / 2^(z - 52)) = n) :
    roundDouble q = n * 2^(z - 52) := by
  unfold roundDouble
  rw [if_neg (ne_of_gt hq), abs_of_pos hq, hlog]
  dsimp only
  rw [hn, if_neg (not_lt.mpr hq.le)]
  ring

/-- The double stored for the literal `0.7`: `0.7` rounds up to
`3152519739159347 / 2^52 = 0.69999999999999995559…`. -/
lemma pyDouble_seven_tenths :
    pyDouble (7/10) = 3152519739159347/4503599627370496 := by
  have hlog : log2floorQ (7/10) = -1 := by
    have h1 : (⌊(1 : ℚ)/(7/10)⌋).toNat = 1 := by
      rw [show ⌊(1 : ℚ)/(7/10)⌋ = 1 from by norm_num]
      rfl
    rw [log2floorQ, if_neg (by norm_num), h1]
    rw [show natLog2F 64 1 = 0 from by norm_num [natLog2F]]
    norm_num
  have hn : roundHalfEven ((7/10 : ℚ) / 2^((-1 : ℤ) - 52)) = 6305039478318694 := by
    rw [show (7/10 : ℚ) / 2^((-1 : ℤ) - 52) = 31525197391593472/5 from by norm_num]
    have hf : ⌊(31525197391593472 : ℚ)/5⌋ = 6305039478318694 := by norm_num
    rw [roundHalfEven, hf, if_pos (by norm_num)]
  rw [pyDouble, roundDouble_eval (7/10) (-1) 6305039478318694 (by norm_num) hlog hn]
  norm_num

/-- `90 * 0.7` in binary64: the exact product `62.99999999999999556…`
rounds down to `8866461766385663 / 2^47 = 62.99999999999999289…`. -/
lemma roundDouble_ninety_times_seven_tenths :
    roundDouble ((141863388262170615 : ℚ)/2251799813685248) =
      8866461766385663/140737488355328 := by
  have hlog : log2floorQ ((141863388262170615 : ℚ)/2251799813685248) = 5 := by
    have h62 : (⌊(141863388262170615 : ℚ)/2251799813685248⌋).toNat = 62 := by
      rw [show ⌊(141863388262170615 : ℚ)/2251799813685248⌋ = 62 from by norm_num]
      rfl
    rw [log2floorQ, if_pos (by norm_num), h62]
    rw [show natLog2F 64 62 = 5 from by norm_num [natLog2F]]
    norm_num
  have hn : roundHalfEven (((141863388262170615 : ℚ)/2251799813685248) / 2^((5 : ℤ) - 52)) =
      8866461766385663 := by
    rw [show ((141863388262170615 : ℚ)/2251799813685248) / 2^((5 : ℤ) - 52) =
      141863388262170615/16 from by norm_num]
    have hf : ⌊(141863388262170615 : ℚ)/16⌋ = 8866461766385663 := by norm_num
    rw [roundHalfEven, hf, if_pos (by norm_num)]
  rw [roundDouble_eval _ 5 8866461766385663 (by norm_num) hlog hn]
  norm_num

/-- The program computes `int(90 * 0.7) = 62` — one below `⌊0.7·90⌋`. -/
lemma train_count_at_ninety :
    (pyInt (roundDouble ((90 : ℚ) * pyDouble (7/10)))).toNat = 62 := by
  rw [pyDouble_seven_tenths]
  rw [show (90 : ℚ) * (3152519739159347/4503599627370496) =
    141863388262170615/2251799813685248 from by norm_num]
  rw [roundDouble_ninety_times_seven_tenths]
  rw [pyInt, if_neg (by norm_num)]
  rw [show ⌊(8866461766385663 : ℚ)/140737488355328⌋ = 62 from by norm_num]
  rfl

/-- C8 counterexample: the claim asserts `train_count = ⌊0.7·K⌋` for every
intersection size `K`.  At `K = 90` (a 90-stem dataset) the source
computes `int(90 * 0.7)` in binary64 arithmetic: the product rounds to
`62.99999999999999289…`, which truncates to `62`, while `⌊0.7·90⌋ = 63`. -/
theorem C8_counterexample_train_count_at_90 :
    (split_dataset (pyDouble (7/10)) (pyDouble (2/10))
        ((List.range 90).map (fun i => [Char.ofNat (97 + i)]))).1.length = 62 ∧
    (⌊(((List.range 90).map (fun i => [Char.ofNat (97 + i)])).length : ℚ) * (7/10)⌋).toNat = 63 ∧
    (62 : ℕ) ≠ 63 := by
  have hlen : ((List.range 90).map (fun i => [Char.ofNat (97 + i)])).length = 90 := by
    simp
  refine ⟨?_, ?_, by decide⟩
  · simp only [split_dataset, List.length_take]
    rw [hlen, Nat.cast_ofNat, train_count_at_ninety]
    norm_num
  · rw [hlen, Nat.cast_ofNat]
    rw [show ⌊(90 : ℚ) * (7/10)⌋ = 63 from by norm_num]
    rfl

/-- C8 amended: for every dataset whose images/labels stem intersection
has size `K` and every shuffle of it, the split takes
`train_count = int(K·0.7)` and `val_count = int(K·0.2)` computed in
binary64 arithmetic — which can fall below the exact `⌊0.7·K⌋`, as at
`K = 90` — and the test split takes all remaining items, so the three
counts sum to `K` exactly and every item of the intersection is allocated
to exactly one split. -/
theorem C8_split_is_exact_partition :
    ∀ (image_files label_files shuffled : List Str),
      List.Perm shuffled (get_labeled_image_paths image_files label_files) →
      (split_dataset (pyDouble (7/10)) (pyDouble (2/10)) shuffled).1.length =
        min ((pyInt (roundDouble (((get_labeled_image_paths image_files label_files).length : ℚ) *
            pyDouble (7/10)))).toNat)
          (get_labeled_image_paths image_files label_files).length ∧
      (split_dataset (pyDouble (7/10)) (pyDouble (2/10)) shuffled).2.1.length =
        min ((pyInt (roundDouble (((get_labeled_image_paths image_files label_files).length : ℚ) *
            pyDouble (2/10)))).toNat)
          ((get_labeled_image_paths image_files label_files).length -
            (pyInt (roundDouble (((get_labeled_image_paths image_files label_files).length : ℚ) *
              pyDouble (7/10)))).toNat) ∧
      (split_dataset (pyDouble (7/10)) (pyDouble (2/10)) shuffled).1.length +
          (split_dataset (pyDouble (7/10)) (pyDouble (2/10)) shuffled).2.1.length +
          (split_dataset (pyDouble (7/10)) (pyDouble (2/10)) shuffled).2.2.length =
        (get_labeled_image_paths image_files label_files).length ∧
      (split_dataset (pyDouble (7/10)) (pyDouble (2/10)) shuffled).1 ++
          (split_dataset (pyDouble (7/10)) (pyDouble (2/10)) shuffled).2.1 ++
          (split_dataset (pyDouble (7/10)) (pyDouble (2/10)) shuffled).2.2 = shuffled ∧
      (∀ x ∈ get_labeled_image_paths image_files label_files,
        (x ∈ (split_dataset (pyDouble (7/10)) (pyDouble (2/10)) shuffled).1 ∧
          x ∉ (split_dataset (pyDouble (7/10)) (pyDouble (2/10)) shuffled).2.1 ∧
          x ∉ (split_dataset (pyDouble (7/10)) (pyDouble (2/10)) shuffled).2.2) ∨
        (x ∉ (split_dataset (pyDouble (7/10)) (pyDouble (2/10)) shuffled).1 ∧
          x ∈ (split_dataset (pyDouble (7/10)) (pyDouble (2/10)) shuffled).2.1 ∧
          x ∉ (split_dataset (pyDouble (7/10)) (pyDouble (2/10)) shuffled).2.2) ∨
        (x ∉ (split_dataset (pyDouble (7/10)) (pyDouble (2/10)) shuffled).1 ∧
          x ∉ (split_dataset (pyDouble (7/10)) (pyDouble (2/10)) shuffled).2.1 ∧
          x ∈ (split_dataset (pyDouble (7/10)) (pyDouble (2/10)) shuffled).2.2)) := by
  intro imgs lbls sh hperm
  have hndP : (get_labeled_image_paths imgs lbls).Nodup :=
    (List.nodup_dedup imgs).filter _
  have hnd : sh.Nodup := hperm.nodup_iff.mpr hndP
  have hK : sh.length = (get_labeled_image_paths imgs lbls).length := hperm.length_eq
  have hconcat : (split_dataset (pyDouble (7/10)) (pyDouble (2/10)) sh).1 ++
      (split_dataset (pyDouble (7/10)) (pyDouble (2/10)) sh).2.1 ++
      (split_dataset (pyDouble (7/10)) (pyDouble (2/10)) sh).2.2 = sh := by
    simp only [split_dataset]
    rw [List.append_assoc]
    exact take_take_drop_concat sh _ _
  refine ⟨?_, ?_, ?_, hconcat, ?_⟩
  · simp only [split_dataset, List.length_take, hK]
  · simp only [split_dataset, List.length_take, List.length_drop, hK]
  · simp only [split_dataset, List.length_take, List.length_drop, hK]
    omega
  · intro x hx
    have hxsh : x ∈ sh := hperm.mem_iff.mpr hx
    have hnd3 : ((split_dataset (pyDouble (7/10)) (pyDouble (2/10)) sh).1 ++
        (split_dataset (pyDouble (7/10)) (pyDouble (2/10)) sh).2.1 ++
        (split_dataset (pyDouble (7/10)) (pyDouble (2/10)) sh).2.2).Nodup := by
      rw [hconcat]
      exact hnd
    obtain ⟨h12, h3, hdisj⟩ := List.nodup_append.mp hnd3
    obtain ⟨h1, h2, hdisj12⟩ := List.nodup_append.mp h12
    have hx3 : x ∈ (split_dataset (pyDouble (7/10)) (pyDouble (2/10)) sh).1 ++
        (split_dataset (pyDouble (7/10)) (pyDouble (2/10)) sh).2.1 ++
        (split_dataset (pyDouble (7/10)) (pyDouble (2/10)) sh).2.2 := by
      rw [hconcat]
      exact hxsh
    rcases List.mem_append.mp hx3 with hx12 | hxc
    · rcases List.mem_append.mp hx12 with hxa | hxb
      · exact Or.inl ⟨hxa, fun hb => hdisj12 hxa hb,
          fun hc => hdisj (List.mem_append_left _ hxa) hc⟩
      · exact Or.inr (Or.inl ⟨fun ha => hdisj12 ha hxb, hxb,
          fun hc => hdisj (List.mem_append_right _ hxb) hc⟩)
    · exact Or.inr (Or.inr ⟨fun ha => hdisj (List.mem_append_left _ ha) hxc,
        fun hb => hdisj (List.mem_append_right _ hb) hxc, hxc⟩)

theorem C8_witness :
    (split_dataset (pyDouble (7/10)) (pyDouble (2/10)) (get_labeled_image_paths
        [strOf "a", strOf "b", strOf "c", strOf "d", strOf "e",
         strOf "f", strOf "g", strOf "h", strOf "i", strOf "j"]
        [strOf "a", strOf "b", strOf "c", strOf "d", strOf "e",
         strOf "f", strOf "g", strOf "h", strOf "i", strOf "j"])).1.length +
      (split_dataset (pyDouble (7/10)) (pyDouble (2/10)) (get_labeled_image_paths
        [strOf "a", strOf "b", strOf "c", strOf "d", strOf "e",
         strOf "f", strOf "g", strOf "h", strOf "i", strOf "j"]
        [strOf "a", strOf "b", strOf "c", strOf "d", strOf "e",
         strOf "f", strOf "g", strOf "h", strOf "i", strOf "j"])).2.1.length +
      (split_dataset (pyDouble (7/10)) (pyDouble (2/10)) (get_labeled_image_paths
        [strOf "a", strOf "b", strOf "c", strOf "d", strOf "e",
         strOf "f", strOf "g", strOf "h", strOf "i", strOf "j"]
        [strOf "a", strOf "b", strOf "c", strOf "d", strOf "e",
         strOf "f", strOf "g", strOf "h", strOf "i", strOf "j"])).2.2.length =
    (get_labeled_image_paths
        [strOf "a", strOf "b", strOf "c", strOf "d", strOf "e",
         strOf "f", strOf "g", strOf "h", strOf "i", strOf "j"]
        [strOf "a", strOf "b", strOf "c", strOf "d", strOf "e",
         strOf "f", strOf "g", strOf "h", strOf "i", strOf "j"]).length :=
  (C8_split_is_exact_partition
    [strOf "a", strOf "b", strOf "c", strOf "d", strOf "e",
     strOf "f", strOf "g", strOf "h", strOf "i", strOf "j"]
    [strOf "a", strOf "b", strOf "c", strOf "d", strOf "e",
     strOf "f", strOf "g", strOf "h", strOf "i", strOf "j"]
    (get_labeled_image_paths
      [strOf "a", strOf "b", strOf "c", strOf "d", strOf "e",
       strOf "f", strOf "g", strOf "h", strOf "i", strOf "j"]
      [strOf "a", strOf "b", strOf "c", strOf "d", strOf "e",
       strOf "f", strOf "g", strOf "h", strOf "i", strOf "j"])
    (List.Perm.refl _)).2.2.1

lemma batchEvents_batch_cons (c o : Nat) (l : List ParseEvent) :
    batchEvents (ParseEvent.batch c o :: l) = (c, o) :: batchEvents l := by
  simp [batchEvents]

lemma batchEvents_append (l1 l2 : List ParseEvent) :
    batchEvents (l1 ++ l2) = batchEvents l1 ++ batchEvents l2 := by
  simp [batchEvents]

lemma batchEvents_sleep_if (b : Prop) [Decidable b] :
    batchEvents (if b then [ParseEvent.sleep] else []) = [] := by
  split <;> simp [batchEvents]

lemma sleepCount_batch_cons (c o : Nat) (l : List ParseEvent) :
    sleepCount (ParseEvent.batch c o :: l) = sleepCount l := by
  simp [sleepCount]

lemma sleepCount_append (l1 l2 : List ParseEvent) :
    sleepCount (l1 ++ l2) = sleepCount l1 + sleepCount l2 := by
  simp [sleepCount]

/-- The final `parsed_posts` of the loop: drain `min remaining M` per
iteration for the remaining iterations. -/
lemma parsePostsLoop_parsed (I M : Nat) :
    ∀ (left it r p : Nat), (parsePostsLoop I M left it r p).2 = p + min r (left * M) := by
  intro left
  induction left with
  | zero =>
    intro it r p
    simp [parsePostsLoop]
  | succ k ih =>
    intro it r p
    simp only [parsePostsLoop]
    rw [ih]
    have hsm : (k + 1) * M = k * M + M := Nat.succ_mul k M
    omega

/-- The loop sleeps after every iteration `j` with `j < I - 1`. -/
lemma parsePostsLoop_sleeps (I M : Nat) :
    ∀ (left it r p : Nat),
      sleepCount (parsePostsLoop I M left it r p).1 = min left (I - 1 - it) := by
  intro left
  induction left with
  | zero =>
    intro it r p
    simp [parsePostsLoop, sleepCount]
  | succ k ih =>
    intro it r p
    simp only [parsePostsLoop]
    rw [sleepCount_batch_cons, sleepCount_append, ih]
    by_cases hit : it < I - 1
    · rw [if_pos hit]
      have h1 : sleepCount [ParseEvent.sleep] = 1 := by simp [sleepCount]
      omega
    · rw [if_neg hit]
      have h0 : sleepCount ([] : List ParseEvent) = 0 := by simp [sleepCount]
      omega

/-- In the invariant state (`remaining = N - it*M`, `parsed = it*M`), the
loop emits one batch request per remaining iteration, the i-th (global)
request asking for `min (N - i*M) M` posts at offset `i*M`. -/
lemma parsePostsLoop_batches (M N I : Nat)
    (hub : N ≤ I * M) (hlb : N + M > I * M) :
    ∀ (left it : Nat), it + left = I →
      batchEvents (parsePostsLoop I M left it (N - it * M) (it * M)).1 =
        (List.range' it left).map (fun i => (min (N - i * M) M, i * M)) := by
  intro left
  induction left with
  | zero =>
    intro it hit
    simp [parsePostsLoop, batchEvents]
  | succ k ih =>
    intro it hit
    simp only [parsePostsLoop]
    rw [batchEvents_batch_cons, batchEvents_append, batchEvents_sleep_if, List.nil_append]
    rw [show List.range' it (k + 1) = it :: List.range' (it + 1) k from rfl, List.map_cons]
    have hsm : (it + 1) * M = it * M + M := Nat.succ_mul it M
    rcases Nat.eq_zero_or_pos k with hk | hk
    · subst hk
      simp [parsePostsLoop, batchEvents]
    · have hcur : min (N - it * M) M = M := by
        have h1 : (it + 1) * M ≤ (I - 1) * M := Nat.mul_le_mul_right M (by omega)
        have h2 : (I - 1) * M = I * M - M := by rw [Nat.sub_one_mul]
        omega
      have harg1 : N - it * M - min (N - it * M) M = N - (it + 1) * M := by
        omega
      have harg2 : it * M + min (N - it * M) M = (it + 1) * M := by
        omega
      rw [harg1, harg2, ih (it + 1) (by omega)]

/-- The iteration count `N // M + (N % M != 0)` computed by `parse_posts`
is the ceiling of `N / M`. -/
lemma ceil_div_eq (N M : Nat) (hM : 0 < M) :
    N / M + (if N % M ≠ 0 then 1 else 0) = (N + M - 1) / M := by
  have hdm : M * (N / M) + N % M = N := Nat.div_add_mod N M
  have hrM : N % M < M := Nat.mod_lt N hM
  have e1 : N / M * M = M * (N / M) := Nat.mul_comm _ _
  have e2 : (N / M + 1) * M = N / M * M + M := Nat.succ_mul _ _
  have e3 : (N / M + 2) * M = (N / M + 1) * M + M := Nat.succ_mul _ _
  by_cases hr : N % M = 0
  · rw [if_neg (by omega)]
    have := Nat.div_eq_of_lt_le (m := N + M - 1) (n := M) (k := N / M)
      (by omega) (by rw [e2]; omega)
    omega
  · rw [if_pos (by omega)]
    have := Nat.div_eq_of_lt_le (m := N + M - 1) (n := M) (k := N / M + 1)
      (by rw [e2]; omega) (by rw [e3, e2]; omega)
    omega

/-- C9: with per-iteration cap `M > 0`, `parse_posts` performs exactly
`⌈N/M⌉ = (N + M - 1) / M` batch requests, the i-th (from 0) asking for
`min (N - i*M) M` posts at cumulative offset `i*M` (the sum of all
previously requested counts), sleeps after every batch except the last,
and returns `N` as the total requested; in particular `N = 100, M = 25`
gives four batches at offsets 0, 25, 50, 75 with three interleaved
sleeps. -/
theorem C9_parse_posts_batched_requests :
    ∀ (N M : Nat), 0 < M →
      batchEvents (parse_posts N M).1 =
        (List.range ((N + M - 1) / M)).map (fun i => (min (N - i * M) M, i * M)) ∧
      (batchEvents (parse_posts N M).1).length = (N + M - 1) / M ∧
      sleepCount (parse_posts N M).1 = (N + M - 1) / M - 1 ∧
      (parse_posts N M).2 = N ∧
      parse_posts 100 25 =
        ([ParseEvent.batch 25 0, ParseEvent.sleep, ParseEvent.batch 25 25, ParseEvent.sleep,
          ParseEvent.batch 25 50, ParseEvent.sleep, ParseEvent.batch 25 75], 100) := by
  intro N M hM
  have hdm : M * (N / M) + N % M = N := Nat.div_add_mod N M
  have hrM : N % M < M := Nat.mod_lt N hM
  have e1 : N / M * M = M * (N / M) := Nat.mul_comm _ _
  have e2 : (N / M + 1) * M = N / M * M + M := Nat.succ_mul _ _
  have hI := ceil_div_eq N M hM
  have hub : N ≤ (N + M - 1) / M * M := by
    rw [← hI, Nat.add_mul]
    by_cases hr : N % M = 0 <;> simp [hr] <;> omega
  have hlb : N + M > (N + M - 1) / M * M := by
    rw [← hI, Nat.add_mul]
    by_cases hr : N % M = 0 <;> simp [hr] <;> omega
  have hrun : parse_posts N M =
      parsePostsLoop ((N + M - 1) / M) M ((N + M - 1) / M) 0 N 0 := by
    simp only [parse_posts]
    rw [hI]
  have hb := parsePostsLoop_batches M N ((N + M - 1) / M) hub hlb
    ((N + M - 1) / M) 0 (by omega)
  rw [Nat.zero_mul, Nat.sub_zero] at hb
  refine ⟨?_, ?_, ?_, ?_, by decide⟩
  · rw [hrun, hb, List.range_eq_range']
  · rw [hrun, hb, List.length_map, List.length_range']
  · rw [hrun, parsePostsLoop_sleeps]
    generalize (N + M - 1) / M = I
    omega
  · rw [hrun, parsePostsLoop_parsed]
    generalize hA : (N + M - 1) / M * M = A at hub ⊢
    omega


theorem C9_witness :
    batchEvents (parse_posts 100 25).1 =
      (List.range ((100 + 25 - 1) / 25)).map (fun i => (min (100 - i * 25) 25, i * 25)) ∧
    sleepCount (parse_posts 100 25).1 = (100 + 25 - 1) / 25 - 1 ∧
    (parse_posts 100 25).2 = 100 :=
  let h := C9_parse_posts_batched_requests 100 25 (by decide)
  ⟨h.1, h.2.2.1, h.2.2.2.1⟩

end CatGender
